import Mathlib

/-!
Shallow embedding of the cross-thread data-handoff core of the
OpenGLRealtimeVisualization4JUCE repository and proofs about it.

Samples are modelled as rationals, memory blocks and channel buffers as
lists of rationals.  The two mutexes of each buffer are modelled as
booleans: the sequential semantics of `try_lock` is a test of the flag,
the sequential semantics of a blocking `lock` is a precondition that the
flag is clear.  All state-changing member functions become pure
functions from states to states, translated statement by statement from
the C++ sources.
-/

set_option maxHeartbeats 1000000

/-- Keep-content resize of a `juce::MemoryBlock` (`setSize (n, true)`):
existing data up to `n` is kept, any added space is zero filled. -/
def setSizeKeep (b : List ℚ) (n : ℕ) : List ℚ :=
  b.take n ++ List.replicate (n - b.length) 0

/-- `memcpy` of `n` elements out of a source list (the C source pointer is
assumed to provide at least `n` elements; a shorter model list is padded
with zeros, which no theorem relies on). -/
def takePad (n : ℕ) (d : List ℚ) : List ℚ :=
  d.take n ++ List.replicate (n - d.length) 0

/-- Overwrite the segment of `b` starting at `off` with `seg`
(a `memcpy` into the middle of a flat buffer). -/
def writeSeg {α : Type} (b : List α) (off : ℕ) (seg : List α) : List α :=
  b.take off ++ seg ++ b.drop (off + seg.length)

/-- Read `k` elements of `b` starting at `off`. -/
def sliceAt {α : Type} (b : List α) (off k : ℕ) : List α :=
  (b.drop off).take k

/-- Per-channel `memcpy` loop: fold `writeSeg` over a list of channel
indices, channel `c` being written at `off c` with payload `seg c`. -/
def foldWrite {α : Type} (wb : List α) (chans : List ℕ) (off : ℕ → ℕ)
    (seg : ℕ → List α) : List α :=
  chans.foldl (fun b c => writeSeg b (off c) (seg c)) wb

/-
## DataCollector (RealtimeDataTransfer/DataCollector.h)

The double-buffered `juce::MemoryBlock` pair with `readBufferLock`,
`writeBufferLock` and the `readerShouldSwapBlocks` flag.  `notifications`
counts the `dataBlockReady` callbacks fired towards the sink.
-/

/-- The mutable state of a `ntlab::DataCollector`. -/
structure DCState where
  readBlock : List ℚ
  writeBlock : List ℚ
  readerShouldSwapBlocks : Bool
  readLocked : Bool
  writeLocked : Bool
  expectedBlockSize : ℕ
  notifications : ℕ
deriving Repr, DecidableEq

/-- `DataCollector::startWriting`: `writeBufferLock.try_lock ()`; on
success the caller obtains the write block pointer, otherwise `nullptr`. -/
def DataCollector.startWriting (s : DCState) : Option Unit × DCState :=
  if s.writeLocked then (none, s)
  else (some (), { s with writeLocked := true })

/-- Mutation of the write block through the pointer returned by
`startWriting` (the caller memcpys its payload into the block). -/
def DataCollector.writeData (s : DCState) (d : List ℚ) : DCState :=
  { s with writeBlock := d }

/-- `DataCollector::finishedWriting`: if the read lock is free, swap the
blocks, release both locks and notify the sink; otherwise leave the write
lock held and set `readerShouldSwapBlocks`. -/
def DataCollector.finishedWriting (s : DCState) : DCState :=
  if s.readLocked then
    { s with readerShouldSwapBlocks := true }
  else
    { s with readBlock := s.writeBlock
             writeBlock := s.readBlock
             writeLocked := false
             notifications := s.notifications + 1 }

/-- `DataCollector::startReading`: blocking-acquire the read lock and
return the read block.  Sequential semantics: only meaningful when the
read lock is free. -/
def DataCollector.startReading (s : DCState) : List ℚ × DCState :=
  (s.readBlock, { s with readLocked := true })

/-- `DataCollector::finishedReading`: resize the read block to the
expected size if needed, perform the deferred swap (clearing the flag,
releasing the write lock, notifying the sink) if `readerShouldSwapBlocks`
was set, then release the read lock. -/
def DataCollector.finishedReading (s : DCState) : DCState :=
  let rb := if s.readBlock.length ≠ s.expectedBlockSize
            then setSizeKeep s.readBlock s.expectedBlockSize
            else s.readBlock
  if s.readerShouldSwapBlocks then
    { s with readBlock := s.writeBlock
             writeBlock := rb
             writeLocked := false
             readerShouldSwapBlocks := false
             notifications := s.notifications + 1
             readLocked := false }
  else
    { s with readBlock := rb, readLocked := false }

/-
## SwappableBuffer (Buffers/SwappableBuffer.h)

Two multi-channel storage regions with `readBufferLock`, `writeBuferLock`
and the `readerShouldSwapPtrs` flag.  Note that the destructor of
`ScopedReadBufferPtr` performs the deferred swap but does *not* clear the
flag; only the next producer call resets it.  The model is faithful to
that.
-/

/-- The mutable state of a `ntlab::SwappableBuffer<float>`. -/
structure SBState where
  size : ℕ
  numChannels : ℕ
  writeChannels : List (List ℚ)
  readChannels : List (List ℚ)
  writeBufferRemainingCapacity : ℕ
  readerShouldSwapPtrs : Bool
  readLocked : Bool
  writeLocked : Bool
deriving Repr, DecidableEq

/-- `SwappableBuffer::writeNewBuffer`: under `writeBuferLock.try_lock`,
clear the flag, memcpy `n` elements per channel and zero-fill the rest of
each channel, then either swap immediately (read lock free) or set
`readerShouldSwapPtrs`, and reset the remaining capacity. -/
def SwappableBuffer.writeNewBuffer (s : SBState) (data : List (List ℚ))
    (n : ℕ) : SBState :=
  if s.writeLocked then s
  else
    let wc := (List.range s.numChannels).map
      (fun i => takePad n (data.getD i []) ++ List.replicate (s.size - n) 0)
    if s.readLocked then
      { s with writeChannels := wc
               readerShouldSwapPtrs := true
               writeBufferRemainingCapacity := s.size }
    else
      { s with writeChannels := s.readChannels
               readChannels := wc
               readerShouldSwapPtrs := false
               writeBufferRemainingCapacity := s.size }

/-- `SwappableBuffer::appendToWriteBuffer`: under the write try-lock,
clear the flag, append as much data as fits, and swap (immediately or
deferred) when the buffer becomes full.  The returned boolean is the
source's return value: `true` iff the buffer was swapped. -/
def SwappableBuffer.appendToWriteBuffer (s : SBState) (data : List (List ℚ))
    (numElementsAvailable : ℕ) : Bool × SBState :=
  if s.writeLocked then (false, s)
  else
    let startIdx := s.size - s.writeBufferRemainingCapacity
    let n := min numElementsAvailable s.writeBufferRemainingCapacity
    let wc := (List.range s.numChannels).map
      (fun i => writeSeg (s.writeChannels.getD i []) startIdx
                  (takePad n (data.getD i [])))
    let remaining := s.writeBufferRemainingCapacity - n
    if remaining = 0 then
      if s.readLocked then
        (true, { s with writeChannels := wc
                        readerShouldSwapPtrs := true
                        writeBufferRemainingCapacity := s.size })
      else
        (true, { s with writeChannels := s.readChannels
                        readChannels := wc
                        readerShouldSwapPtrs := false
                        writeBufferRemainingCapacity := s.size })
    else
      (false, { s with writeChannels := wc
                       readerShouldSwapPtrs := false
                       writeBufferRemainingCapacity := remaining })

/-- `SwappableBuffer::getReadBuffer`: blocking-acquire the read lock and
return the read channel pointers.  Sequential semantics: only meaningful
when the read lock is free. -/
def SwappableBuffer.acquireRead (s : SBState) : List (List ℚ) × SBState :=
  (s.readChannels, { s with readLocked := true })

/-- `SwappableBuffer::ScopedReadBufferPtr::~ScopedReadBufferPtr`: swap
the regions if `readerShouldSwapPtrs` is set, then release the read lock.
The flag is left untouched, exactly as in the source. -/
def SwappableBuffer.releaseRead (s : SBState) : SBState :=
  if s.readerShouldSwapPtrs then
    { s with writeChannels := s.readChannels
             readChannels := s.writeChannels
             readLocked := false }
  else
    { s with readLocked := false }

/-
## Claims about the handoff primitive
-/

/-- **C1.**  A write that completes while a read is in progress is not
dropped.  For the `DataCollector` block pair: completing a write of `d`
while the read lock is held sets the pending flag, and the read block
returned by the first `startReading` after the read's release is exactly
`d`.  For the `SwappableBuffer`: a `writeNewBuffer` during a read defers
the swap, and the channels returned by the first `acquireRead` after the
read's release are exactly the channels that write produced. -/
theorem claim1_write_during_read_never_dropped
    (s : DCState) (d : List ℚ) (t : SBState) (data : List (List ℚ)) (n : ℕ)
    (hs : s.readLocked = true)
    (ht : t.readLocked = true) (htw : t.writeLocked = false) :
    ((DataCollector.finishedWriting (DataCollector.writeData s d)).readerShouldSwapBlocks = true ∧
     (DataCollector.startReading
        (DataCollector.finishedReading
          (DataCollector.finishedWriting (DataCollector.writeData s d)))).1 = d) ∧
    ((SwappableBuffer.writeNewBuffer t data n).readerShouldSwapPtrs = true ∧
     (SwappableBuffer.acquireRead
        (SwappableBuffer.releaseRead
          (SwappableBuffer.writeNewBuffer t data n))).1 =
       (SwappableBuffer.writeNewBuffer t data n).writeChannels) := by
  constructor
  · constructor
    · simp [DataCollector.writeData, DataCollector.finishedWriting, hs]
    · simp [DataCollector.writeData, DataCollector.finishedWriting, hs,
            DataCollector.finishedReading, DataCollector.startReading]
  · constructor
    · simp [SwappableBuffer.writeNewBuffer, ht, htw]
    · simp [SwappableBuffer.writeNewBuffer, ht, htw,
            SwappableBuffer.releaseRead, SwappableBuffer.acquireRead]

/-- Witness for C1 at a concrete one-channel state of both buffers. -/
theorem claim1_witness :
    ((DataCollector.finishedWriting
        (DataCollector.writeData
          ⟨[0], [0], false, true, true, 1, 0⟩ [5])).readerShouldSwapBlocks = true ∧
     (DataCollector.startReading
        (DataCollector.finishedReading
          (DataCollector.finishedWriting
            (DataCollector.writeData
              ⟨[0], [0], false, true, true, 1, 0⟩ [5])))).1 = [5]) ∧
    ((SwappableBuffer.writeNewBuffer
        ⟨1, 1, [[0]], [[0]], 1, false, true, false⟩ [[5]] 1).readerShouldSwapPtrs = true ∧
     (SwappableBuffer.acquireRead
        (SwappableBuffer.releaseRead
          (SwappableBuffer.writeNewBuffer
            ⟨1, 1, [[0]], [[0]], 1, false, true, false⟩ [[5]] 1))).1 =
       (SwappableBuffer.writeNewBuffer
          ⟨1, 1, [[0]], [[0]], 1, false, true, false⟩ [[5]] 1).writeChannels) :=
  claim1_write_during_read_never_dropped
    ⟨[0], [0], false, true, true, 1, 0⟩ [5]
    ⟨1, 1, [[0]], [[0]], 1, false, true, false⟩ [[5]] 1 rfl rfl rfl

/-- **C2 (code bug).**  Evaluation of the `SwappableBuffer` model on the
failing input: a write of `[[5]]` completes during a read of a fresh
one-channel buffer; at the read's release the deferred swap is performed
but `readerShouldSwapPtrs` stays `true`; releasing a subsequent read
during which no write completed therefore swaps *again*, and the read
acquired after it observes the stale data `[[0]]` instead of `[[5]]`. -/
theorem claim2_flag_not_cleared_on_release :
    ((SwappableBuffer.releaseRead
       (SwappableBuffer.writeNewBuffer
         (SwappableBuffer.acquireRead
           ⟨1, 1, [[0]], [[0]], 1, false, false, false⟩).2 [[5]] 1)).readerShouldSwapPtrs
        = true) ∧
    ((SwappableBuffer.acquireRead
       (SwappableBuffer.releaseRead
         (SwappableBuffer.writeNewBuffer
           (SwappableBuffer.acquireRead
             ⟨1, 1, [[0]], [[0]], 1, false, false, false⟩).2 [[5]] 1))).1 = [[5]]) ∧
    ((SwappableBuffer.acquireRead
       (SwappableBuffer.releaseRead
         (SwappableBuffer.acquireRead
           (SwappableBuffer.releaseRead
             (SwappableBuffer.writeNewBuffer
               (SwappableBuffer.acquireRead
                 ⟨1, 1, [[0]], [[0]], 1, false, false, false⟩).2 [[5]] 1))).2)).1 = [[0]]) := by
  refine ⟨?_, ?_, ?_⟩ <;> decide

/-- **C10.**  `writeNewBuffer` with `n ≤ size` elements zero-fills every
channel of the newly written region from position `n` up to `size`; the
region a subsequent reader observes (the deferred write region if a read
was in progress, the new read region otherwise) therefore carries no
residual data past the new write's length. -/
theorem claim10_writeNewBuffer_zero_fills_tail
    (s : SBState) (data : List (List ℚ)) (n : ℕ) (i : ℕ)
    (hw : s.writeLocked = false) (hn : n ≤ s.size) (hi : i < s.numChannels) :
    ((if s.readLocked then (SwappableBuffer.writeNewBuffer s data n).writeChannels
      else (SwappableBuffer.writeNewBuffer s data n).readChannels).getD i []).drop n =
      List.replicate (s.size - n) 0 := by
  have hchan :
      (if s.readLocked then (SwappableBuffer.writeNewBuffer s data n).writeChannels
       else (SwappableBuffer.writeNewBuffer s data n).readChannels) =
      (List.range s.numChannels).map
        (fun i => takePad n (data.getD i []) ++ List.replicate (s.size - n) 0) := by
    by_cases hr : s.readLocked <;>
      simp [SwappableBuffer.writeNewBuffer, hw, hr]
  rw [hchan]
  have hget : ((List.range s.numChannels).map
      (fun i => takePad n (data.getD i []) ++ List.replicate (s.size - n) 0)).getD i [] =
      takePad n (data.getD i []) ++ List.replicate (s.size - n) 0 := by
    rw [List.getD_eq_getElem?_getD, List.getElem?_map]
    simp [List.getElem?_range hi]
  rw [hget]
  have hlen : (takePad n (data.getD i [])).length = n := by
    simp [takePad]
    omega
  rw [List.drop_left' hlen]

/-- Witness for C10 at a concrete two-channel buffer of size 3 written
with 1 element per channel. -/
theorem claim10_witness :
    (((false : Bool) = false ∧ 1 ≤ 3 ∧ 0 < 2) ∧
     ((if (⟨3, 2, [[1,1,1],[2,2,2]], [[0,0,0],[0,0,0]], 3, false, false, false⟩ : SBState).readLocked
       then (SwappableBuffer.writeNewBuffer
              ⟨3, 2, [[1,1,1],[2,2,2]], [[0,0,0],[0,0,0]], 3, false, false, false⟩ [[9],[8]] 1).writeChannels
       else (SwappableBuffer.writeNewBuffer
              ⟨3, 2, [[1,1,1],[2,2,2]], [[0,0,0],[0,0,0]], 3, false, false, false⟩ [[9],[8]] 1).readChannels).getD 0 []).drop 1 =
       List.replicate (3 - 1) 0) :=
  ⟨⟨rfl, by decide, by decide⟩,
   claim10_writeNewBuffer_zero_fills_tail
     ⟨3, 2, [[1,1,1],[2,2,2]], [[0,0,0],[0,0,0]], 3, false, false, false⟩
     [[9],[8]] 1 0 rfl (by decide) (by decide)⟩

/-
## Sequential producer/consumer traces over a DataCollector

`DCEvent` is the alphabet of a purely sequential (single-threaded)
interleaving of producer write attempts and consumer reads on one
`DataCollector`.  `inWrite` is a ghost flag recording that a producer
call holds the write pointer obtained from a successful `startWriting`
and has not yet called `finishedWriting`; it is exactly the notion of
"another producer call is in progress" used by the spec.  Events that
would violate the API contract in C++ (writing without holding the
pointer, re-entering a read) are no-ops.
-/

/-- One step of a sequential producer/consumer interleaving. -/
inductive DCEvent where
  | startWrite : DCEvent
  | writeData : List ℚ → DCEvent
  | finishWrite : DCEvent
  | startRead : DCEvent
  | finishRead : DCEvent
deriving Repr, DecidableEq

/-- A `DCState` together with the ghost flag tracking an in-flight
producer call. -/
structure DCGhost where
  st : DCState
  inWrite : Bool
deriving Repr, DecidableEq

/-- Sequential small-step semantics of the `DataCollector` API. -/
def dcStep (g : DCGhost) (e : DCEvent) : DCGhost :=
  match e with
  | DCEvent.startWrite =>
      match DataCollector.startWriting g.st with
      | (some _, st') => ⟨st', true⟩
      | (none, st') => ⟨st', g.inWrite⟩
  | DCEvent.writeData d =>
      if g.inWrite then ⟨DataCollector.writeData g.st d, g.inWrite⟩ else g
  | DCEvent.finishWrite =>
      if g.inWrite then ⟨DataCollector.finishedWriting g.st, false⟩ else g
  | DCEvent.startRead =>
      if g.st.readLocked then g
      else ⟨(DataCollector.startReading g.st).2, g.inWrite⟩
  | DCEvent.finishRead =>
      if g.st.readLocked then ⟨DataCollector.finishedReading g.st, g.inWrite⟩
      else g

/-- A freshly constructed collector: empty blocks, flags clear. -/
def dcInit : DCGhost :=
  ⟨⟨[], [], false, false, false, 0, 0⟩, false⟩

/-- Run a sequential trace from the initial collector state. -/
def dcRun (es : List DCEvent) : DCGhost :=
  es.foldl dcStep dcInit

/-- The lock/flag invariant of every reachable collector state: the
write lock is held exactly when a producer call is in flight or a
completed write is awaiting its deferred swap, and never both at once. -/
def DCInv (g : DCGhost) : Prop :=
  g.st.writeLocked = (g.inWrite || g.st.readerShouldSwapBlocks) ∧
  ¬(g.inWrite = true ∧ g.st.readerShouldSwapBlocks = true)

theorem dcStep_preserves_inv (g : DCGhost) (e : DCEvent) (h : DCInv g) :
    DCInv (dcStep g e) := by
  obtain ⟨h1, h2⟩ := h
  cases e with
  | startWrite =>
      cases hw : g.st.writeLocked
      · have hin : g.inWrite = false := by
          cases hi : g.inWrite
          · rfl
          · rw [hi, hw] at h1; simp at h1
        have hfl : g.st.readerShouldSwapBlocks = false := by
          cases hf : g.st.readerShouldSwapBlocks
          · rfl
          · rw [hf, hw] at h1; simp at h1
        constructor
        · simp [dcStep, DataCollector.startWriting, hw, hfl]
        · simp [dcStep, DataCollector.startWriting, hw, hfl]
      · constructor
        · simpa [dcStep, DataCollector.startWriting, hw] using h1
        · simpa [dcStep, DataCollector.startWriting, hw] using h2
  | writeData d =>
      cases hi : g.inWrite
      · constructor
        · simpa [dcStep, hi] using h1
        · simpa [dcStep, hi] using h2
      · constructor
        · simpa [dcStep, hi, DataCollector.writeData] using h1
        · simpa [dcStep, hi, DataCollector.writeData] using h2
  | finishWrite =>
      cases hi : g.inWrite
      · constructor
        · simpa [dcStep, hi] using h1
        · simpa [dcStep, hi] using h2
      · have hfl : g.st.readerShouldSwapBlocks = false := by
          cases hf : g.st.readerShouldSwapBlocks
          · rfl
          · exact absurd ⟨hi, hf⟩ h2
        cases hr : g.st.readLocked
        · constructor
          · simp [dcStep, hi, DataCollector.finishedWriting, hr, hfl]
          · simp [dcStep, hi, DataCollector.finishedWriting, hr, hfl]
        · constructor
          · simp [dcStep, hi, DataCollector.finishedWriting, hr, hfl]
            rw [hi, hfl] at h1
            simpa using h1
          · simp [dcStep, hi, DataCollector.finishedWriting, hr, hfl]
  | startRead =>
      cases hr : g.st.readLocked
      · constructor
        · simpa [dcStep, hr, DataCollector.startReading] using h1
        · simpa [dcStep, hr, DataCollector.startReading] using h2
      · constructor
        · simpa [dcStep, hr] using h1
        · simpa [dcStep, hr] using h2
  | finishRead =>
      cases hr : g.st.readLocked
      · constructor
        · simpa [dcStep, hr] using h1
        · simpa [dcStep, hr] using h2
      · cases hf : g.st.readerShouldSwapBlocks
        · constructor
          · simpa [dcStep, hr, DataCollector.finishedReading, hf] using h1
          · simpa [dcStep, hr, DataCollector.finishedReading, hf] using h2
        · have hin : g.inWrite = false := by
            cases hi : g.inWrite
            · rfl
            · exact absurd ⟨hi, hf⟩ h2
          constructor
          · simp [dcStep, hr, DataCollector.finishedReading, hf, hin]
          · simp [dcStep, hr, DataCollector.finishedReading, hf, hin]

theorem dcFold_inv (es : List DCEvent) (g : DCGhost) (h : DCInv g) :
    DCInv (es.foldl dcStep g) := by
  induction es generalizing g with
  | nil => exact h
  | cons e es ih => exact ih _ (dcStep_preserves_inv g e h)

theorem dcRun_inv (es : List DCEvent) : DCInv (dcRun es) :=
  dcFold_inv es dcInit ⟨rfl, by simp [dcInit]⟩

/-- **C3 counterexample.**  A purely sequential trace on which a producer
write attempt fails although no other producer call is in progress: the
producer completes a write while the consumer holds the read lock (the
swap is deferred and `finishedWriting` keeps the write lock), and the
very next `startWriting` returns no write block even though `inWrite`
is false. -/
theorem claim3_counterexample_sequential_write_fails :
    (DataCollector.startWriting
       (dcRun [DCEvent.startWrite, DCEvent.writeData [5],
               DCEvent.startRead, DCEvent.finishWrite]).st).1 = none ∧
    (dcRun [DCEvent.startWrite, DCEvent.writeData [5],
            DCEvent.startRead, DCEvent.finishWrite]).inWrite = false := by
  constructor <;> rfl

/-- **C3 (amended).**  On every reachable state of a sequential trace, a
producer write attempt yields no write block if and only if another
producer call is in progress *or* a completed write is still awaiting its
deferred swap at the next read release. -/
theorem claim3_amended_write_fails_iff_busy_or_pending (es : List DCEvent) :
    (DataCollector.startWriting (dcRun es).st).1 = none ↔
      ((dcRun es).inWrite = true ∨
       (dcRun es).st.readerShouldSwapBlocks = true) := by
  obtain ⟨h1, h2⟩ := dcRun_inv es
  constructor
  · intro hnone
    cases hwv : (dcRun es).st.writeLocked
    · simp [DataCollector.startWriting, hwv] at hnone
    · rw [hwv] at h1
      rcases (Bool.or_eq_true _ _).mp h1.symm with h | h
      · exact Or.inl h
      · exact Or.inr h
  · intro hcase
    have hw : (dcRun es).st.writeLocked = true := by
      rw [h1]
      rcases hcase with h | h <;> simp [h]
    simp [DataCollector.startWriting, hw]

/-
## SpectralDataCollector (RealtimeDataTransfer/SpectralDataCollector.cpp)

Complex samples are pairs of rationals.  The external library transform
(`juce::dsp::FFT::perform`) and the standard-library complex magnitude
(`std::abs`) are not code of this repository; they enter the model as
function parameters `fft` and `cabs`, instantiated concretely in closed
theorems.  Byte sizes are modelled in units of one float throughout
(`expectedNumBytesForMemoryBlock / sizeof (float)`), which the source
only ever uses as a whole multiple of `sizeof (float)`.  The member
`windowingFunction` (allocated in `setFFTOrder`, a hamming window sized
to the transform length) is modelled by `windowLen`.
-/

/-- A `std::complex<float>` sample. -/
abbrev CSample := ℚ × ℚ

/-- `SpectralDataCollector::numFFTSToAverage` (static const, 3). -/
def numFFTSToAverage : ℕ := 3

/-- The mutable state of a `ntlab::SpectralDataCollector`, including its
inherited `DataCollector` block pair. -/
structure SpectralState where
  dc : DCState
  fftOrder : ℕ
  numSamplesExpected : ℕ
  numFFTSCalculated : ℕ
  numChannels : ℕ
  channelOffset : List ℕ
  sampleBuffer : List CSample
  spectralBuffer : List CSample
  expectedNumFloats : ℕ
  numSamplesAllChannels : ℕ
  numSamplesInSampleBuffer : ℕ
  holdsWriteBlock : Bool
  windowLen : Option ℕ
deriving Repr, DecidableEq

/-- `SpectralDataCollector::recalculateMemory`: recompute the per-channel
layout, resize the exchange block, allocate zeroed sample and spectral
buffers.  Neither `numFFTSCalculated` nor `numSamplesInSampleBuffer` nor
the held write block is touched, exactly as in the source. -/
def SpectralDataCollector.recalculateMemory (s : SpectralState) : SpectralState :=
  let nAll := s.numChannels * s.numSamplesExpected
  { s with numSamplesAllChannels := nAll
           expectedNumFloats := nAll
           dc := { s.dc with expectedBlockSize := nAll }
           sampleBuffer := List.replicate nAll ((0 : ℚ), (0 : ℚ))
           spectralBuffer := List.replicate nAll ((0 : ℚ), (0 : ℚ))
           channelOffset := (List.range s.numChannels).map
             (fun i => i * s.numSamplesExpected) }

/-- `SpectralDataCollector::setFFTOrder`: store the new order and
transform length, allocate a fresh FFT and hamming windowing function of
that length, then `recalculateMemory`. -/
def SpectralDataCollector.setFFTOrder (s : SpectralState) (newFFTOrder : ℕ) :
    SpectralState :=
  SpectralDataCollector.recalculateMemory
    { s with fftOrder := newFFTOrder
             numSamplesExpected := 2 ^ newFFTOrder
             windowLen := some (2 ^ newFFTOrder) }

/-- The per-channel out-of-place transforms of `processFFT`:
`fft->perform (sampleBuffer + channelOffset[c], spectralBuffer + channelOffset[c], false)`
for every channel `c`. -/
def spectralOf (fft : List CSample → List CSample) (s : SpectralState) :
    List CSample :=
  foldWrite s.spectralBuffer (List.range s.numChannels)
    (fun c => s.channelOffset.getD c 0)
    (fun c => fft (sliceAt s.sampleBuffer (s.channelOffset.getD c 0)
                     s.numSamplesExpected))

/-- The accumulation loop of `processFFT`:
`writePtr[n] += std::abs (spectralBuffer[n])` for `n < numSamplesAllChannels`. -/
def accumulateAbs (cabs : CSample → ℚ) (wb : List ℚ) (spec : List CSample)
    (n : ℕ) : List ℚ :=
  (List.range wb.length).map
    (fun i => if i < n then wb.getD i 0 + cabs (spec.getD i ((0 : ℚ), (0 : ℚ)))
              else wb.getD i 0)

/-- `juce::FloatVectorOperations::multiply (writePtr, k, n)`: scale the
first `n` entries by `k`. -/
def scaleFirst (n : ℕ) (k : ℚ) (wb : List ℚ) : List ℚ :=
  (List.range wb.length).map
    (fun i => if i < n then wb.getD i 0 * k else wb.getD i 0)

/-- `SpectralDataCollector::processFFT`: per-channel FFT of the raw
sample buffer into the spectral buffer (no windowing takes place in the
source), acquisition and zeroing of a write block when none is held,
magnitude accumulation, and on the `numFFTSToAverage`-th accumulation
scaling by `2 / (numSamplesExpected * numFFTSToAverage)`, publication and
counter reset; a held block of unexpected size is flushed as-is.  The
enclosing recursive `processingLock` is already held by the caller, so
its `try_lock` succeeds in the sequential model. -/
def SpectralDataCollector.processFFT (fft : List CSample → List CSample)
    (cabs : CSample → ℚ) (s : SpectralState) : SpectralState :=
  let s1 := { s with spectralBuffer := spectralOf fft s }
  let s2 :=
    if s1.holdsWriteBlock then s1
    else
      match DataCollector.startWriting s1.dc with
      | (some _, dc') =>
          { s1 with dc := { dc' with writeBlock := List.replicate dc'.writeBlock.length 0 }
                    holdsWriteBlock := true }
      | (none, dc') => { s1 with dc := dc' }
  let s3 :=
    if s2.holdsWriteBlock then
      if s2.dc.writeBlock.length = s2.expectedNumFloats then
        let wb := accumulateAbs cabs s2.dc.writeBlock s2.spectralBuffer
                    s2.numSamplesAllChannels
        let nf := s2.numFFTSCalculated + 1
        if nf = numFFTSToAverage then
          let wb2 := scaleFirst s2.numSamplesAllChannels
              (2 / ((s2.numSamplesExpected * numFFTSToAverage : ℕ) : ℚ)) wb
          { s2 with dc := DataCollector.finishedWriting { s2.dc with writeBlock := wb2 }
                    holdsWriteBlock := false
                    numFFTSCalculated := 0 }
        else
          { s2 with dc := { s2.dc with writeBlock := wb }
                    numFFTSCalculated := nf }
      else
        { s2 with dc := DataCollector.finishedWriting s2.dc
                  holdsWriteBlock := false }
    else s2
  { s3 with numSamplesInSampleBuffer := 0 }

/-- `SpectralDataCollector::pushChannelsSamples`: a buffer whose channel
count differs from the configured one is ignored outright (`return;`).
Otherwise append real samples as complex values into each channel of the
sample buffer and run `processFFT` once the buffer is full. -/
def SpectralDataCollector.pushChannelsSamples (fft : List CSample → List CSample)
    (cabs : CSample → ℚ) (s : SpectralState) (buf : List (List ℚ))
    (numSamplesInPassedBuffer : ℕ) : SpectralState :=
  if buf.length ≠ s.numChannels then s
  else
    let toCopy := min numSamplesInPassedBuffer
        (s.numSamplesExpected - s.numSamplesInSampleBuffer)
    let sb := foldWrite s.sampleBuffer (List.range s.numChannels)
        (fun c => s.channelOffset.getD c 0 + s.numSamplesInSampleBuffer)
        (fun c => ((buf.getD c []).take toCopy).map (fun x => ((x : ℚ), (0 : ℚ))))
    let s1 := { s with sampleBuffer := sb
                       numSamplesInSampleBuffer := s.numSamplesInSampleBuffer + toCopy }
    if s1.numSamplesInSampleBuffer ≥ s1.numSamplesExpected then
      SpectralDataCollector.processFFT fft cabs s1
    else s1

/-- The windowed pipeline the spec describes in §4.4 ("once full, apply a
Hamming window ..., run an ... FFT per channel"): multiply every channel
of the full sample buffer with the window coefficients, then run the
transform pipeline.  This definition follows the spec's words and exists
only to be compared against `SpectralDataCollector.processFFT`. -/
def windowSamples (window : List ℚ) (s : SpectralState) : List CSample :=
  foldWrite s.sampleBuffer (List.range s.numChannels)
    (fun c => s.channelOffset.getD c 0)
    (fun c => List.zipWith (fun w (p : CSample) => (w * p.1, w * p.2)) window
       (sliceAt s.sampleBuffer (s.channelOffset.getD c 0) s.numSamplesExpected))

def processFFTWindowedSpec (window : List ℚ) (fft : List CSample → List CSample)
    (cabs : CSample → ℚ) (s : SpectralState) : SpectralState :=
  SpectralDataCollector.processFFT fft cabs
    { s with sampleBuffer := windowSamples window s }

/-- A one-channel collector with order-1 transforms (length 2), a full
sample buffer `[1, 3]` and a freshly zeroed held write block. -/
def spectralStateC4 : SpectralState :=
  { dc := ⟨[0, 0], [0, 0], false, false, true, 2, 0⟩
    fftOrder := 1
    numSamplesExpected := 2
    numFFTSCalculated := 0
    numChannels := 1
    channelOffset := [0]
    sampleBuffer := [(1, 0), (3, 0)]
    spectralBuffer := [(0, 0), (0, 0)]
    expectedNumFloats := 2
    numSamplesAllChannels := 2
    numSamplesInSampleBuffer := 2
    holdsWriteBlock := true
    windowLen := some 2 }

/-- **C4 (code bug).**  Evaluation at the failing input: with the
transform instantiated as the identity and the magnitude as the real
part, `processFFT` accumulates the *raw* samples `[1, 3]` — the hamming
window (whose exact coefficients for length 2 are `[2/25, 2/25]`) is
never applied, although `windowingFunction` is allocated in
`setFFTOrder` and the class documentation promises windowing.  The
windowed pipeline the spec describes yields `[2/25, 6/25]` instead. -/
theorem claim4_fft_performed_without_windowing :
    (SpectralDataCollector.processFFT (fun l => l) (fun p => p.1)
        spectralStateC4).dc.writeBlock = [1, 3] ∧
    (processFFTWindowedSpec [2/25, 2/25] (fun l => l) (fun p => p.1)
        spectralStateC4).dc.writeBlock = [2/25, 6/25] ∧
    ([1, 3] : List ℚ) ≠ [2/25, 6/25] := by
  refine ⟨?_, ?_, ?_⟩ <;>
    norm_num [SpectralDataCollector.processFFT, processFFTWindowedSpec,
      spectralStateC4, spectralOf, windowSamples, foldWrite, writeSeg, sliceAt,
      accumulateAbs, scaleFirst, numFFTSToAverage, DataCollector.startWriting,
      DataCollector.finishedWriting, List.range_succ]

/-- **C5.**  With a held write block of the expected size and no read in
progress, `processFFT` on the third accumulation (`numFFTSCalculated = 2`
beforehand) scales the accumulated magnitudes by
`2 / (numSamplesExpected * numFFTSToAverage)`, publishes the block (the
consumer-visible read block becomes exactly the scaled accumulator and
the sink is notified), releases the block and resets the counter to zero;
on earlier accumulations it only increments the counter and publishes
nothing, so every published block averages exactly three transforms. -/
theorem claim5_averages_exactly_three_transforms
    (fft : List CSample → List CSample) (cabs : CSample → ℚ) (s : SpectralState)
    (hh : s.holdsWriteBlock = true)
    (hlen : s.dc.writeBlock.length = s.expectedNumFloats)
    (hrl : s.dc.readLocked = false) :
    (s.numFFTSCalculated = 2 →
      (SpectralDataCollector.processFFT fft cabs s).numFFTSCalculated = 0 ∧
      (SpectralDataCollector.processFFT fft cabs s).holdsWriteBlock = false ∧
      (SpectralDataCollector.processFFT fft cabs s).dc.notifications =
        s.dc.notifications + 1 ∧
      (SpectralDataCollector.processFFT fft cabs s).dc.readBlock =
        scaleFirst s.numSamplesAllChannels
          (2 / ((s.numSamplesExpected * numFFTSToAverage : ℕ) : ℚ))
          (accumulateAbs cabs s.dc.writeBlock (spectralOf fft s)
            s.numSamplesAllChannels)) ∧
    (s.numFFTSCalculated < 2 →
      (SpectralDataCollector.processFFT fft cabs s).numFFTSCalculated =
        s.numFFTSCalculated + 1 ∧
      (SpectralDataCollector.processFFT fft cabs s).holdsWriteBlock = true ∧
      (SpectralDataCollector.processFFT fft cabs s).dc.notifications =
        s.dc.notifications) := by
  constructor
  · intro hc
    simp [SpectralDataCollector.processFFT, hh, hlen, hc, numFFTSToAverage,
          DataCollector.finishedWriting, hrl]
  · intro hc
    have hne : ¬(s.numFFTSCalculated + 1 = numFFTSToAverage) := by
      simp only [numFFTSToAverage]
      omega
    simp [SpectralDataCollector.processFFT, hh, hlen, hne]

/-- A one-channel collector two accumulations into an averaging cycle:
the held write block carries the partial sums `[3, 6]`. -/
def spectralStateC5 : SpectralState :=
  { dc := ⟨[0, 0], [3, 6], false, false, true, 2, 0⟩
    fftOrder := 1, numSamplesExpected := 2, numFFTSCalculated := 2, numChannels := 1
    channelOffset := [0], sampleBuffer := [(1, 0), (2, 0)], spectralBuffer := [(0, 0), (0, 0)]
    expectedNumFloats := 2, numSamplesAllChannels := 2, numSamplesInSampleBuffer := 2
    holdsWriteBlock := true, windowLen := some 2 }

/-- Witness for C5 at `spectralStateC5` with the transform instantiated
as the identity and the magnitude as the real part. -/
theorem claim5_witness :
    (SpectralDataCollector.processFFT (fun l => l) (fun p => p.1)
        spectralStateC5).numFFTSCalculated = 0 ∧
    (SpectralDataCollector.processFFT (fun l => l) (fun p => p.1)
        spectralStateC5).holdsWriteBlock = false ∧
    (SpectralDataCollector.processFFT (fun l => l) (fun p => p.1)
        spectralStateC5).dc.notifications = spectralStateC5.dc.notifications + 1 ∧
    (SpectralDataCollector.processFFT (fun l => l) (fun p => p.1)
        spectralStateC5).dc.readBlock =
      scaleFirst spectralStateC5.numSamplesAllChannels
        (2 / ((spectralStateC5.numSamplesExpected * numFFTSToAverage : ℕ) : ℚ))
        (accumulateAbs (fun p => p.1) spectralStateC5.dc.writeBlock
          (spectralOf (fun l => l) spectralStateC5)
          spectralStateC5.numSamplesAllChannels) :=
  (claim5_averages_exactly_three_transforms (fun l => l) (fun p => p.1)
    spectralStateC5 rfl rfl rfl).1 rfl

/-- A one-channel collector mid-cycle: two transforms already accumulated
into the held block `[5, 7]`, one sample pending in the sample buffer. -/
def spectralStateC6 : SpectralState :=
  { dc := ⟨[0, 0], [5, 7], false, false, true, 2, 0⟩
    fftOrder := 1, numSamplesExpected := 2, numFFTSCalculated := 2, numChannels := 1
    channelOffset := [0], sampleBuffer := [(4, 0), (0, 0)], spectralBuffer := [(0, 0), (0, 0)]
    expectedNumFloats := 2, numSamplesAllChannels := 2, numSamplesInSampleBuffer := 1
    holdsWriteBlock := true, windowLen := some 2 }

/-- **C6 (code bug).**  Evaluation at the failing input: calling
`setFFTOrder 2` mid-cycle reallocates the sample/spectral buffers but
leaves the completed-transform counter at 2, the sample-buffer fill count
at 1 and the partially accumulated write block `[5, 7]` in place; the
next `processFFT` then publishes that stale partial accumulation through
the size-mismatch flush path (the consumer-visible read block becomes
`[5, 7]`) with the counter still at 2. -/
theorem claim6_setFFTOrder_keeps_stale_accumulation :
    (SpectralDataCollector.setFFTOrder spectralStateC6 2).numFFTSCalculated = 2 ∧
    (SpectralDataCollector.setFFTOrder spectralStateC6 2).numFFTSCalculated ≠ 0 ∧
    (SpectralDataCollector.setFFTOrder spectralStateC6 2).holdsWriteBlock = true ∧
    (SpectralDataCollector.setFFTOrder spectralStateC6 2).dc.writeBlock = [5, 7] ∧
    (SpectralDataCollector.setFFTOrder spectralStateC6 2).numSamplesInSampleBuffer = 1 ∧
    (SpectralDataCollector.processFFT (fun l => l) (fun p => p.1)
        (SpectralDataCollector.setFFTOrder spectralStateC6 2)).dc.readBlock = [5, 7] ∧
    (SpectralDataCollector.processFFT (fun l => l) (fun p => p.1)
        (SpectralDataCollector.setFFTOrder spectralStateC6 2)).numFFTSCalculated = 2 := by
  refine ⟨?_, ?_, ?_, ?_, ?_, ?_, ?_⟩ <;> decide

/-
## OscilloscopeDataCollector (RealtimeDataTransfer/OscilloscopeDataCollector.cpp)
-/

/-- The mutable state of a `ntlab::OscilloscopeDataCollector`, including
its inherited `DataCollector` block pair. -/
structure OscState where
  dc : DCState
  numChannels : ℕ
  channelOffset : List ℕ
  holdsWriteBlock : Bool
  expectedNumFloats : ℕ
  numSamplesInCurrentBlock : ℕ
  numSamplesExpected : ℕ
  triggeringEnabled : Bool
  foundTriggerInCurrentBlock : Bool
  triggerChannel : ℕ
deriving Repr, DecidableEq

/-- `OscilloscopeDataCollector::prepareForNextSampleBlock`: publish the
block via `finishedWriting`, drop the pointer and reset the per-frame
trigger flag and fill count. -/
def OscilloscopeDataCollector.prepareForNextSampleBlock (s : OscState) : OscState :=
  { s with dc := DataCollector.finishedWriting s.dc
           holdsWriteBlock := false
           foundTriggerInCurrentBlock := false
           numSamplesInCurrentBlock := 0 }

/-- `OscilloscopeDataCollector::fillUnmatchingBlockWithZeros`: clear the
whole held block and finalize it immediately. -/
def OscilloscopeDataCollector.fillUnmatchingBlockWithZeros (s : OscState)
    (blockLenFloats : ℕ) : OscState :=
  OscilloscopeDataCollector.prepareForNextSampleBlock
    { s with dc := { s.dc with writeBlock := List.replicate blockLenFloats 0 } }

/-- The rising-zero-crossing test of the trigger scan:
`tc[i - 1] <= 0.0f && tc[i] > 0.0f`. -/
def isRisingEdge (tc : List ℚ) (i : ℕ) : Bool :=
  decide (tc.getD (i - 1) 0 ≤ 0) && decide (0 < tc.getD i 0)

/-- The trigger scan loop `for (int i = 1; i < numSamplesInBuffer; ++i)`:
the first index `i` in `[1, n)` at which the rising edge fires. -/
def findTrigger (tc : List ℚ) (n : ℕ) : Option ℕ :=
  (List.range' 1 (n - 1)).find? (isRisingEdge tc)

/-- `OscilloscopeDataCollector::pushChannelsSamples`: acquire a write
block if none is held; mismatching channel count or block size zero-fill
and flush the block; with triggering armed scan for the first rising edge
and start the capture there (discarding everything before it, capturing
nothing if no edge is found); otherwise append samples at the current
frame offset; finalize the frame once full. -/
def OscilloscopeDataCollector.pushChannelsSamples (s : OscState)
    (buf : List (List ℚ)) (numSamplesInBuffer : ℕ) : OscState :=
  let s0 :=
    if s.holdsWriteBlock then s
    else
      match DataCollector.startWriting s.dc with
      | (some _, dc') => { s with dc := dc', holdsWriteBlock := true }
      | (none, dc') => { s with dc := dc' }
  if s0.holdsWriteBlock = false then s0
  else
    let blockLen := s0.dc.writeBlock.length
    if buf.length ≠ s0.numChannels then
      OscilloscopeDataCollector.fillUnmatchingBlockWithZeros s0 blockLen
    else if blockLen ≠ s0.expectedNumFloats then
      OscilloscopeDataCollector.fillUnmatchingBlockWithZeros s0 blockLen
    else
      let s1 : OscState :=
        if s0.triggeringEnabled && !s0.foundTriggerInCurrentBlock then
          match findTrigger (buf.getD s0.triggerChannel []) numSamplesInBuffer with
          | none => s0
          | some i =>
            let numSamplesAvailable := numSamplesInBuffer - i
            let toCopy := min numSamplesAvailable
                (s0.numSamplesExpected - s0.numSamplesInCurrentBlock)
            let wb := foldWrite s0.dc.writeBlock (List.range s0.numChannels)
                (fun c => s0.channelOffset.getD c 0)
                (fun c => ((buf.getD c []).drop i).take toCopy)
            { s0 with dc := { s0.dc with writeBlock := wb }
                      foundTriggerInCurrentBlock := true
                      numSamplesInCurrentBlock := toCopy }
        else
          let toCopy := min numSamplesInBuffer
              (s0.numSamplesExpected - s0.numSamplesInCurrentBlock)
          let wb := foldWrite s0.dc.writeBlock (List.range s0.numChannels)
              (fun c => s0.channelOffset.getD c 0 + s0.numSamplesInCurrentBlock)
              (fun c => (buf.getD c []).take toCopy)
          { s0 with dc := { s0.dc with writeBlock := wb }
                    numSamplesInCurrentBlock := s0.numSamplesInCurrentBlock + toCopy }
      if s1.numSamplesInCurrentBlock = s1.numSamplesExpected then
        OscilloscopeDataCollector.prepareForNextSampleBlock s1
      else s1

/-
## List lemmas about segment writes
-/

theorem writeSeg_length {α : Type} (b : List α) (off : ℕ) (seg : List α)
    (h : off + seg.length ≤ b.length) : (writeSeg b off seg).length = b.length := by
  simp only [writeSeg, List.length_append, List.length_take, List.length_drop]
  omega

theorem sliceAt_writeSeg_self {α : Type} (b : List α) (off : ℕ) (seg : List α)
    (h : off ≤ b.length) :
    sliceAt (writeSeg b off seg) off seg.length = seg := by
  have h1 : (b.take off).length = off := by
    simp only [List.length_take]
    omega
  rw [sliceAt, writeSeg, List.append_assoc, List.drop_left' h1, List.take_left' rfl]

theorem writeSeg_take {α : Type} (b : List α) (off : ℕ) (seg : List α) (m : ℕ)
    (hm : m ≤ off) (hb : off ≤ b.length) :
    (writeSeg b off seg).take m = b.take m := by
  have h1 : m ≤ (b.take off).length := by
    simp only [List.length_take]
    omega
  rw [writeSeg, List.append_assoc, List.take_append_of_le_length h1,
      List.take_take, min_eq_left hm]

theorem sliceAt_eq_take_drop {α : Type} (b : List α) (off k : ℕ) :
    sliceAt b off k = (b.take (off + k)).drop off := by
  rw [sliceAt, List.drop_take]
  congr 1
  omega

theorem foldWrite_length {α : Type} (chans : List ℕ) (wb : List α) (off : ℕ → ℕ)
    (seg : ℕ → List α) (h : ∀ c ∈ chans, off c + (seg c).length ≤ wb.length) :
    (foldWrite wb chans off seg).length = wb.length := by
  induction chans generalizing wb with
  | nil => rfl
  | cons c cs ih =>
      have hc : off c + (seg c).length ≤ wb.length := h c (by simp)
      have hlen : (writeSeg wb (off c) (seg c)).length = wb.length :=
        writeSeg_length wb (off c) (seg c) hc
      have hrest : ∀ x ∈ cs, off x + (seg x).length ≤ (writeSeg wb (off c) (seg c)).length := by
        intro x hx
        rw [hlen]
        exact h x (by simp [hx])
      calc (foldWrite wb (c :: cs) off seg).length
          = (foldWrite (writeSeg wb (off c) (seg c)) cs off seg).length := rfl
        _ = (writeSeg wb (off c) (seg c)).length := ih _ hrest
        _ = wb.length := hlen

theorem foldWrite_take {α : Type} (chans : List ℕ) (wb : List α) (off : ℕ → ℕ)
    (seg : ℕ → List α) (m : ℕ)
    (hm : ∀ c ∈ chans, m ≤ off c)
    (hb : ∀ c ∈ chans, off c + (seg c).length ≤ wb.length) :
    (foldWrite wb chans off seg).take m = wb.take m := by
  induction chans generalizing wb with
  | nil => rfl
  | cons c cs ih =>
      have hc := hb c (by simp)
      have hlen := writeSeg_length wb (off c) (seg c) hc
      have h1 : (foldWrite (writeSeg wb (off c) (seg c)) cs off seg).take m
          = (writeSeg wb (off c) (seg c)).take m := by
        apply ih
        · intro x hx
          exact hm x (by simp [hx])
        · intro x hx
          rw [hlen]
          exact hb x (by simp [hx])
      calc (foldWrite wb (c :: cs) off seg).take m
          = (foldWrite (writeSeg wb (off c) (seg c)) cs off seg).take m := rfl
        _ = (writeSeg wb (off c) (seg c)).take m := h1
        _ = wb.take m := writeSeg_take wb (off c) (seg c) m (hm c (by simp)) (by omega)

theorem foldWrite_congr {α : Type} (chans : List ℕ) (wb : List α)
    (off off' : ℕ → ℕ) (seg seg' : ℕ → List α)
    (hoff : ∀ c ∈ chans, off c = off' c) (hseg : ∀ c ∈ chans, seg c = seg' c) :
    foldWrite wb chans off seg = foldWrite wb chans off' seg' := by
  induction chans generalizing wb with
  | nil => rfl
  | cons c cs ih =>
      have h1 : off c = off' c := hoff c (by simp)
      have h2 : seg c = seg' c := hseg c (by simp)
      calc foldWrite wb (c :: cs) off seg
          = foldWrite (writeSeg wb (off c) (seg c)) cs off seg := rfl
        _ = foldWrite (writeSeg wb (off' c) (seg' c)) cs off' seg' := by
              rw [h1, h2]
              exact ih _ (fun x hx => hoff x (List.mem_cons_of_mem c hx))
                (fun x hx => hseg x (List.mem_cons_of_mem c hx))
        _ = foldWrite wb (c :: cs) off' seg' := rfl

theorem foldWrite_range_slice {α : Type} (N k L : ℕ) (seg : ℕ → List α)
    (hk : k ≤ N) :
    ∀ (m : ℕ) (wb : List α), wb.length = L → m * N ≤ L →
      (∀ c, c < m → (seg c).length = k) →
      ∀ c, c < m →
        sliceAt (foldWrite wb (List.range m) (fun c => c * N) seg) (c * N) k = seg c := by
  intro m
  induction m with
  | zero =>
      intro wb _ _ _ c hc
      exact absurd hc (Nat.not_lt_zero c)
  | succ m ih =>
      intro wb hwb hmL hseg c hc
      have hbounds : ∀ x ∈ List.range m, x * N + (seg x).length ≤ wb.length := by
        intro x hx
        have hxm : x < m := List.mem_range.mp hx
        rw [hseg x (by omega), hwb]
        have : (x + 1) * N ≤ m * N := Nat.mul_le_mul_right N (by omega)
        have h2 : m * N ≤ L := le_trans (Nat.mul_le_mul_right N (by omega)) hmL
        nlinarith [Nat.succ_mul x N]
      have hBlen : (foldWrite wb (List.range m) (fun c => c * N) seg).length = L := by
        rw [foldWrite_length _ _ _ _ hbounds, hwb]
      have hsplit : foldWrite wb (List.range (m + 1)) (fun c => c * N) seg =
          writeSeg (foldWrite wb (List.range m) (fun c => c * N) seg) (m * N) (seg m) := by
        rw [foldWrite, List.range_succ, List.foldl_append]
        rfl
      rw [hsplit]
      rcases Nat.lt_succ_iff_lt_or_eq.mp hc with hlt | rfl
      · have hmain : sliceAt (writeSeg (foldWrite wb (List.range m) (fun c => c * N) seg)
            (m * N) (seg m)) (c * N) k =
            sliceAt (foldWrite wb (List.range m) (fun c => c * N) seg) (c * N) k := by
          rw [sliceAt_eq_take_drop, sliceAt_eq_take_drop]
          rw [writeSeg_take]
          · have : (c + 1) * N ≤ m * N := Nat.mul_le_mul_right N (by omega)
            nlinarith [Nat.succ_mul c N]
          · rw [hBlen]
            exact le_trans (Nat.mul_le_mul_right N (by omega)) hmL
        rw [hmain]
        exact ih wb hwb (le_trans (Nat.mul_le_mul_right N (by omega)) hmL)
          (fun x hx => hseg x (by omega)) c hlt
      · have hksm : k = (seg c).length := (hseg c (by omega)).symm
        rw [hksm]
        apply sliceAt_writeSeg_self
        rw [hBlen]
        exact le_trans (Nat.mul_le_mul_right N (by omega)) hmL

theorem getD_map_range (f : ℕ → ℕ) (n c : ℕ) (hc : c < n) :
    ((List.range n).map f).getD c 0 = f c := by
  rw [List.getD_eq_getElem?_getD, List.getElem?_map, List.getElem?_range hc]
  rfl

theorem find?_range'_least (p : ℕ → Bool) (len : ℕ) :
    ∀ start i, (List.range' start len).find? p = some i →
      p i = true ∧ start ≤ i ∧ i < start + len ∧
        ∀ j, start ≤ j → j < i → p j = false := by
  induction len with
  | zero =>
      intro start i h
      simp [List.range'] at h
  | succ len ih =>
      intro start i h
      rw [List.range'_succ] at h
      cases hp : p start with
      | true =>
          rw [List.find?_cons_of_pos _ hp] at h
          obtain rfl : start = i := Option.some.inj h
          exact ⟨hp, le_refl _, by omega, fun j h1 h2 => absurd h1 (by omega)⟩
      | false =>
          rw [List.find?_cons_of_neg _ (by simp [hp])] at h
          obtain ⟨h1, h2, h3, h4⟩ := ih (start + 1) i h
          refine ⟨h1, by omega, by omega, ?_⟩
          intro j hj1 hj2
          rcases Nat.eq_or_lt_of_le hj1 with heq | hlt
          · rw [← heq]
            exact hp
          · exact h4 j hlt hj2

/-- **C7.**  With triggering enabled at the start of a new frame
(`numSamplesInCurrentBlock = 0`, trigger not yet found) and a held,
correctly sized write block: if the trigger channel contains no rising
zero-crossing the push call leaves the collector state entirely unchanged
(no samples captured, frame offset stays 0); if `findTrigger` yields `i`
then `i` is the *first* index with `sample[i-1] <= 0 < sample[i]`, all
samples before `i` are discarded, and (as long as the frame does not
complete within this push) every channel's captured data starting at its
frame offset is exactly the input channel's samples from index `i` on. -/
theorem claim7_trigger_scan
    (s : OscState) (buf : List (List ℚ)) (numSamplesInBuffer : ℕ)
    (hh : s.holdsWriteBlock = true)
    (hbuf : buf.length = s.numChannels)
    (hlen : s.dc.writeBlock.length = s.expectedNumFloats)
    (hexp : s.expectedNumFloats = s.numChannels * s.numSamplesExpected)
    (hoff : s.channelOffset = (List.range s.numChannels).map
      (fun c => c * s.numSamplesExpected))
    (htrig : s.triggeringEnabled = true)
    (hfound : s.foundTriggerInCurrentBlock = false)
    (hcur : s.numSamplesInCurrentBlock = 0)
    (hpos : 0 < s.numSamplesExpected)
    (hch : ∀ c, c < s.numChannels → (buf.getD c []).length = numSamplesInBuffer) :
    (findTrigger (buf.getD s.triggerChannel []) numSamplesInBuffer = none →
      OscilloscopeDataCollector.pushChannelsSamples s buf numSamplesInBuffer = s) ∧
    (∀ i, findTrigger (buf.getD s.triggerChannel []) numSamplesInBuffer = some i →
      (1 ≤ i ∧ i < numSamplesInBuffer ∧
        (buf.getD s.triggerChannel []).getD (i - 1) 0 ≤ 0 ∧
        0 < (buf.getD s.triggerChannel []).getD i 0 ∧
        ∀ j, 1 ≤ j → j < i →
          ¬((buf.getD s.triggerChannel []).getD (j - 1) 0 ≤ 0 ∧
            0 < (buf.getD s.triggerChannel []).getD j 0)) ∧
      (numSamplesInBuffer - i < s.numSamplesExpected →
        (OscilloscopeDataCollector.pushChannelsSamples s buf
            numSamplesInBuffer).foundTriggerInCurrentBlock = true ∧
        (OscilloscopeDataCollector.pushChannelsSamples s buf
            numSamplesInBuffer).numSamplesInCurrentBlock = numSamplesInBuffer - i ∧
        ∀ c, c < s.numChannels →
          sliceAt (OscilloscopeDataCollector.pushChannelsSamples s buf
              numSamplesInBuffer).dc.writeBlock
              (c * s.numSamplesExpected) (numSamplesInBuffer - i) =
            ((buf.getD c []).drop i).take (numSamplesInBuffer - i))) := by
  constructor
  · intro hfind
    have hne : ¬(s.numSamplesInCurrentBlock = s.numSamplesExpected) := by omega
    simp [OscilloscopeDataCollector.pushChannelsSamples, hh, hbuf, hlen, htrig,
          hfound, hfind, hne, -List.getD_eq_getElem?_getD]
  · intro i hfind
    obtain ⟨hedge, hge, hlt', hmin⟩ :=
      find?_range'_least (isRisingEdge (buf.getD s.triggerChannel []))
        (numSamplesInBuffer - 1) 1 i hfind
    have hin : i < numSamplesInBuffer := by omega
    simp only [isRisingEdge, Bool.and_eq_true, decide_eq_true_eq] at hedge
    constructor
    · refine ⟨hge, hin, hedge.1, hedge.2, ?_⟩
      intro j hj1 hj2 hcontra
      have hj := hmin j hj1 hj2
      simp [isRisingEdge, -List.getD_eq_getElem?_getD] at hj
      exact absurd hcontra.2 (not_lt.mpr (hj hcontra.1))
    · intro hni
      have htc : min (numSamplesInBuffer - i)
          (s.numSamplesExpected - s.numSamplesInCurrentBlock) = numSamplesInBuffer - i := by
        rw [hcur]
        omega
      have hne2 : ¬(numSamplesInBuffer - i = s.numSamplesExpected) := by omega
      have hpush : OscilloscopeDataCollector.pushChannelsSamples s buf numSamplesInBuffer =
          { s with dc := { s.dc with
                           writeBlock := (foldWrite s.dc.writeBlock
                             (List.range s.numChannels)
                             (fun c => s.channelOffset.getD c 0)
                             (fun c => ((buf.getD c []).drop i).take
                               (numSamplesInBuffer - i))) }
                   foundTriggerInCurrentBlock := true
                   numSamplesInCurrentBlock := numSamplesInBuffer - i } := by
        simp [OscilloscopeDataCollector.pushChannelsSamples, hh, hbuf, hlen, htrig,
              hfound, hfind, htc, hne2, -List.getD_eq_getElem?_getD]
      rw [hpush]
      refine ⟨rfl, rfl, ?_⟩
      intro c hc
      have hcongr : foldWrite s.dc.writeBlock (List.range s.numChannels)
          (fun c => s.channelOffset.getD c 0)
          (fun c => ((buf.getD c []).drop i).take (numSamplesInBuffer - i)) =
        foldWrite s.dc.writeBlock (List.range s.numChannels)
          (fun c => c * s.numSamplesExpected)
          (fun c => ((buf.getD c []).drop i).take (numSamplesInBuffer - i)) := by
        apply foldWrite_congr
        · intro x hx
          rw [hoff, getD_map_range _ _ _ (List.mem_range.mp hx)]
        · intro x hx
          rfl
      show sliceAt (foldWrite s.dc.writeBlock (List.range s.numChannels)
          (fun c => s.channelOffset.getD c 0)
          (fun c => ((buf.getD c []).drop i).take (numSamplesInBuffer - i)))
          (c * s.numSamplesExpected) (numSamplesInBuffer - i) = _
      rw [hcongr]
      exact foldWrite_range_slice s.numSamplesExpected (numSamplesInBuffer - i)
        (s.numChannels * s.numSamplesExpected) _ (by omega) s.numChannels
        s.dc.writeBlock (by rw [hlen, hexp]) (le_refl _)
        (fun x hx => by
          rw [List.length_take, List.length_drop, hch x hx]
          omega)
        c hc

/-- A one-channel triggering oscilloscope collector at the start of a new
4-sample frame, holding a matching zeroed write block. -/
def oscStateC7 : OscState :=
  { dc := ⟨[0, 0, 0, 0], [0, 0, 0, 0], false, false, true, 4, 0⟩
    numChannels := 1, channelOffset := [0], holdsWriteBlock := true
    expectedNumFloats := 4, numSamplesInCurrentBlock := 0, numSamplesExpected := 4
    triggeringEnabled := true, foundTriggerInCurrentBlock := false, triggerChannel := 0 }

/-- Witness for C7: the buffer `[1, -1, 0, 2, 5]` has its first rising
zero-crossing at index 3, so the capture starts there with the samples
`[2, 5]`. -/
theorem claim7_witness :
    (OscilloscopeDataCollector.pushChannelsSamples oscStateC7
        [[1, -1, 0, 2, 5]] 5).foundTriggerInCurrentBlock = true ∧
    (OscilloscopeDataCollector.pushChannelsSamples oscStateC7
        [[1, -1, 0, 2, 5]] 5).numSamplesInCurrentBlock = 5 - 3 ∧
    ∀ c, c < oscStateC7.numChannels →
      sliceAt (OscilloscopeDataCollector.pushChannelsSamples oscStateC7
          [[1, -1, 0, 2, 5]] 5).dc.writeBlock
          (c * oscStateC7.numSamplesExpected) (5 - 3) =
        (([[1, -1, 0, 2, 5]].getD c (α := List ℚ) []).drop 3).take (5 - 3) :=
  ((claim7_trigger_scan oscStateC7 [[1, -1, 0, 2, 5]] 5 rfl rfl rfl rfl (by decide)
      rfl rfl rfl (by decide)
      (fun c hc => by
        have hc' : c < 1 := hc
        have hc0 : c = 0 := by omega
        rw [hc0]
        rfl)).2 3 (by decide)).2 (by decide)

/-- A two-channel spectral collector in its initial cycle. -/
def spectralStateC8 : SpectralState :=
  { dc := ⟨[0, 0, 0, 0], [0, 0, 0, 0], false, false, false, 4, 0⟩
    fftOrder := 1, numSamplesExpected := 2, numFFTSCalculated := 0, numChannels := 2
    channelOffset := [0, 2], sampleBuffer := [(0, 0), (0, 0), (0, 0), (0, 0)]
    spectralBuffer := [(0, 0), (0, 0), (0, 0), (0, 0)]
    expectedNumFloats := 4, numSamplesAllChannels := 4, numSamplesInSampleBuffer := 0
    holdsWriteBlock := false, windowLen := some 2 }

/-- A two-channel oscilloscope collector one sample into a 2-sample
frame, holding a matching write block with partial data. -/
def oscStateC8 : OscState :=
  { dc := ⟨[0, 0, 0, 0], [7, 8, 9, 9], false, false, true, 4, 0⟩
    numChannels := 2, channelOffset := [0, 2], holdsWriteBlock := true
    expectedNumFloats := 4, numSamplesInCurrentBlock := 1, numSamplesExpected := 2
    triggeringEnabled := false, foundTriggerInCurrentBlock := false, triggerChannel := 0 }

/-- **C8 (code bug).**  Evaluation at the failing input: pushing a
one-channel buffer into the two-channel *spectral* collector leaves the
collector state completely unchanged — nothing is zero-filled, nothing is
published (`pushChannelsSamples` returns at the channel-count guard) —
although the method's own documentation and the spec promise a
zero-fill-and-flush.  The *oscilloscope* collector by contrast does
zero-fill its held block and flush it (the consumer-visible read block
becomes all zeros, the sink is notified, the frame offset resets). -/
theorem claim8_channel_mismatch_behavior :
    SpectralDataCollector.pushChannelsSamples (fun l => l) (fun p => p.1)
        spectralStateC8 [[1, 2, 3]] 3 = spectralStateC8 ∧
    (OscilloscopeDataCollector.pushChannelsSamples oscStateC8
        [[1, 2, 3]] 3).dc.readBlock = [0, 0, 0, 0] ∧
    (OscilloscopeDataCollector.pushChannelsSamples oscStateC8
        [[1, 2, 3]] 3).dc.notifications = oscStateC8.dc.notifications + 1 ∧
    (OscilloscopeDataCollector.pushChannelsSamples oscStateC8
        [[1, 2, 3]] 3).numSamplesInCurrentBlock = 0 := by
  refine ⟨?_, ?_, ?_, ?_⟩ <;> decide

/-
## LocalDataSinkAndSource (RealtimeDataTransfer/LocalDataSinkAndSource.h)
-/

/-- `juce::StringArray::indexOf`: the index of the first equal element
(`none` models the source's `-1`). -/
def indexOfId : List String → String → Option ℕ
  | [], _ => none
  | x :: xs, a => if x = a then some 0 else (indexOfId xs a).map (fun n => n + 1)

/-- The registration-relevant fields of a `DataCollector`: its immutable
identifier, its sink index (initialised to `-1`) and whether the sink
back-pointer has been assigned. -/
structure DataCollectorReg where
  id : String
  sinkIdx : ℤ
  sinkSet : Bool
deriving Repr, DecidableEq

/-- The registry state of a `ntlab::LocalDataSinkAndSource` after the
targets have been registered and `finishedRegisteringTargets` has sized
the collector table: the frozen identifier list and the collector slots
(each holding the identifier of the registered collector, `none` for an
empty slot). -/
structure LocalDataSinkAndSource where
  targetIdentifiers : List String
  collectors : List (Option String)
deriving Repr, DecidableEq

/-- `LocalDataSinkAndSource::registerDataCollector`: look the collector's
identifier up in the frozen target list; on a miss return a failure
result and touch nothing; on a hit assign the collector's sink index and
sink pointer and store it in the routing slot. -/
def LocalDataSinkAndSource.registerDataCollector (r : LocalDataSinkAndSource)
    (c : DataCollectorReg) :
    Except String Unit × LocalDataSinkAndSource × DataCollectorReg :=
  match indexOfId r.targetIdentifiers c.id with
  | none => (Except.error ("Failed to find target with identifier " ++ c.id), r, c)
  | some i => (Except.ok (),
      { r with collectors := r.collectors.set i (some c.id) },
      { c with sinkIdx := (i : ℤ), sinkSet := true })

theorem indexOfId_eq_none (l : List String) (a : String) (h : a ∉ l) :
    indexOfId l a = none := by
  induction l with
  | nil => rfl
  | cons x xs ih =>
      have hne : ¬(x = a) := fun heq => h (heq ▸ List.mem_cons_self x xs)
      have hxs : indexOfId xs a = none :=
        ih (fun hm => h (List.mem_cons_of_mem x hm))
      simp only [indexOfId, if_neg hne, hxs, Option.map_none']

/-- **C9.**  Registering a collector whose identifier matches no frozen
target identifier returns the failure result and leaves everything
untouched: the registry (identifier list and routing slots) is returned
unchanged and the collector keeps its previous sink index and unassigned
sink pointer. -/
theorem claim9_register_unknown_id_fails_cleanly
    (r : LocalDataSinkAndSource) (c : DataCollectorReg)
    (h : c.id ∉ r.targetIdentifiers) :
    LocalDataSinkAndSource.registerDataCollector r c =
      (Except.error ("Failed to find target with identifier " ++ c.id), r, c) := by
  rw [LocalDataSinkAndSource.registerDataCollector,
      indexOfId_eq_none r.targetIdentifiers c.id h]

/-- Witness for C9: registering `Oscilloscope2` against a registry that
only knows `Oscilloscope1` and `SpectralAnalyzer1` fails cleanly. -/
theorem claim9_witness :
    (("Oscilloscope2" : String) ∉ ["Oscilloscope1", "SpectralAnalyzer1"]) ∧
    LocalDataSinkAndSource.registerDataCollector
        ⟨["Oscilloscope1", "SpectralAnalyzer1"], [none, none]⟩
        ⟨"Oscilloscope2", -1, false⟩ =
      (Except.error ("Failed to find target with identifier " ++ "Oscilloscope2"),
       ⟨["Oscilloscope1", "SpectralAnalyzer1"], [none, none]⟩,
       ⟨"Oscilloscope2", -1, false⟩) :=
  ⟨by decide,
   claim9_register_unknown_id_fails_cleanly
     ⟨["Oscilloscope1", "SpectralAnalyzer1"], [none, none]⟩
     ⟨"Oscilloscope2", -1, false⟩ (by decide)⟩
